import Mathlib

/-!
Shallow embedding of the pdf-signer pipeline.

PDF buffers are JS `Buffer` values viewed through `toString('binary')`
(latin1), modelled as `List Char`; raw byte vectors are `List Nat`
(each entry below 256).  Regex-based scans from the source are
implemented as explicit character-list matchers; for the concrete
patterns used here the greedy matchers agree with the JS regex
semantics because adjacent token classes are disjoint.
-/

namespace PdfSigner

/-- Whitespace class of the JS regex `\s`, restricted to latin1 code points
(the only characters a `binary`-decoded buffer can contain). -/
def isWs (c : Char) : Bool :=
  c = ' ' || c = '\t' || c = '\n' || c = '\r' || c = '\x0b' || c = '\x0c' || c = '\u00A0'

/-- Case-insensitive character comparison, as used by the `/i` regex flag
(for latin1 text only ASCII letters fold). -/
def ciEq (p c : Char) : Bool := p.toLower == c.toLower

/-- Does `pat` occur literally at the head of `s`? -/
def litAt : List Char → List Char → Bool
  | [], _ => true
  | _ :: _, [] => false
  | p :: ps, c :: cs => p = c && litAt ps cs

/-- Case-insensitive variant of `litAt`. -/
def litAtCI : List Char → List Char → Bool
  | [], _ => true
  | _ :: _, [] => false
  | p :: ps, c :: cs => ciEq p c && litAtCI ps cs

/-- Drop the literal `pat` from the head of `s`, returning the rest. -/
def dropLit : List Char → List Char → Option (List Char)
  | [], s => some s
  | _ :: _, [] => none
  | p :: ps, c :: cs => if p = c then dropLit ps cs else none

/-- Case-insensitive variant of `dropLit`. -/
def dropLitCI : List Char → List Char → Option (List Char)
  | [], s => some s
  | _ :: _, [] => none
  | p :: ps, c :: cs => if ciEq p c then dropLitCI ps cs else none

/-- Skip one-or-more whitespace characters (`\s+`). -/
def dropWs1 : List Char → Option (List Char)
  | [] => none
  | c :: t => if isWs c then some (t.dropWhile isWs) else none

/-- Digit-string to number, as JS `parseInt` on a run of decimal digits. -/
def digitsToNat (ds : List Char) : Nat :=
  ds.foldl (fun acc c => 10 * acc + (c.toNat - 48)) 0

/-- Decimal rendering of a number, as JS template interpolation. -/
def natDigits (n : Nat) : List Char := Nat.toDigits 10 n

/-- First-match scan over all start positions, as an un-anchored JS regex. -/
def scanFirst {α : Type} (f : List Char → Option α) : List Char → Option α
  | [] => none
  | c :: t =>
    match f (c :: t) with
    | some r => some r
    | none => scanFirst f t

/-- Any-position test scan, as `regex.test`. -/
def scanAny (f : List Char → Bool) : List Char → Bool
  | [] => false
  | c :: t => f (c :: t) || scanAny f t

/-- JS `String.replace` with a string pattern: replace the first literal
occurrence of `pat` by `repl` (no-op when `pat` does not occur). -/
def replaceFirst (pat repl : List Char) : List Char → List Char
  | [] => if pat.isEmpty then repl else []
  | c :: cs =>
    if litAt pat (c :: cs) then repl ++ (c :: cs).drop pat.length
    else c :: replaceFirst pat repl cs

/-- JS `String.padEnd(n, '0')`. -/
def padEnd (s : List Char) (n : Nat) : List Char :=
  s ++ List.replicate (n - s.length) '0'

/-- Lower-case hex digit, as produced by `Buffer.toString('hex')`. -/
def hexDigitChar (n : Nat) : Char :=
  if n < 10 then Char.ofNat (48 + n) else Char.ofNat (87 + n)

/-- `Buffer.toString('hex')`: two lower-case hex digits per byte. -/
def hexEncode : List Nat → List Char
  | [] => []
  | b :: bs => hexDigitChar (b / 16 % 16) :: hexDigitChar (b % 16) :: hexEncode bs

/-- Hex-digit value. -/
def hexVal (c : Char) : Option Nat :=
  if '0' ≤ c ∧ c ≤ '9' then some (c.toNat - 48)
  else if 'a' ≤ c ∧ c ≤ 'f' then some (c.toNat - 87)
  else if 'A' ≤ c ∧ c ≤ 'F' then some (c.toNat - 55)
  else none

/-- `Buffer.from(hex, 'hex')`: decode hex pairs, stopping at a bad or
incomplete pair. -/
def hexDecode : List Char → List Nat
  | c1 :: c2 :: rest =>
    match hexVal c1, hexVal c2 with
    | some a, some b => (16 * a + b) :: hexDecode rest
    | _, _ => []
  | _ => []

def contentsKeyLit : List Char := "/Contents <".data

def gtLit : List Char := ">".data

/-- The exact text `/Contents <hex>` used as search pattern and replacement
by `replaceSignatureInPDF`. -/
def contentsToken (hex : List Char) : List Char :=
  contentsKeyLit ++ hex ++ gtLit

/-- `replaceSignatureInPDF` from the tsa-helper module: refuses a new
signature whose hex encoding exceeds the placeholder width (returning the
input buffer), otherwise pads the hex to the exact old width and splices
it over the first `/Contents <oldHex>` occurrence. -/
def replaceSignatureInPDF (pdf : List Char) (oldHex : List Char) (newSig : List Nat) : List Char :=
  let newHex := hexEncode newSig
  if oldHex.length < newHex.length then pdf
  else replaceFirst (contentsToken oldHex) (contentsToken (padEnd newHex oldHex.length)) pdf

/-- The inline `replaceSignatureInPDF` variant of the netlify signing
function: pads the new hex to the old width but performs no overflow
check before splicing. -/
def replaceSignatureInPDF1 (pdf : List Char) (oldHex : List Char) (newSig : List Nat) : List Char :=
  replaceFirst (contentsToken oldHex) (contentsToken (padEnd (hexEncode newSig) oldHex.length)) pdf

def byteRangeLit : List Char := "/ByteRange".data

def contentsLit : List Char := "/Contents".data

/-- Match `\/ByteRange\s*\[\s*(\d+)\s+(\d+)\s+(\d+)\s+(\d+)\s*\]` at the
head of `s`, returning the four captured numbers. -/
def byteRangeAt (s : List Char) : Option (Nat × Nat × Nat × Nat) :=
  match dropLit byteRangeLit s with
  | none => none
  | some r0 =>
    match (r0.dropWhile isWs) with
    | '[' :: r1 =>
      let r2 := r1.dropWhile isWs
      let d1 := r2.takeWhile Char.isDigit
      if d1.isEmpty then none
      else
        match dropWs1 (r2.drop d1.length) with
        | none => none
        | some r3 =>
          let d2 := r3.takeWhile Char.isDigit
          if d2.isEmpty then none
          else
            match dropWs1 (r3.drop d2.length) with
            | none => none
            | some r4 =>
              let d3 := r4.takeWhile Char.isDigit
              if d3.isEmpty then none
              else
                match dropWs1 (r4.drop d3.length) with
                | none => none
                | some r5 =>
                  let d4 := r5.takeWhile Char.isDigit
                  if d4.isEmpty then none
                  else
                    match (r5.drop d4.length).dropWhile isWs with
                    | ']' :: _ =>
                      some (digitsToNat d1, digitsToNat d2, digitsToNat d3, digitsToNat d4)
                    | _ => none
    | _ => none

def isHexDigit (c : Char) : Bool :=
  c.isDigit || ('a' ≤ c && c ≤ 'f') || ('A' ≤ c && c ≤ 'F')

/-- Match `\/Contents\s*<([0-9a-fA-F]+)>` at the head of `s`, returning the
captured hex string. -/
def contentsHexAt (s : List Char) : Option (List Char) :=
  match dropLit contentsLit s with
  | none => none
  | some r0 =>
    match (r0.dropWhile isWs) with
    | '<' :: r1 =>
      let hx := r1.takeWhile isHexDigit
      if hx.isEmpty then none
      else
        match r1.drop hx.length with
        | '>' :: _ => some hx
        | _ => none
    | _ => none

/-- Result of `extractSignatureFromPDF`. -/
structure ExtractedSig where
  signature : List Nat
  byteRange : Nat × Nat × Nat × Nat
  signatureHex : List Char

/-- `extractSignatureFromPDF`: locate the first `/ByteRange [...]` and the
first `/Contents <hex>` in the buffer; `none` when either is missing. -/
def extractSignatureFromPDF (pdf : List Char) : Option ExtractedSig :=
  match scanFirst byteRangeAt pdf, scanFirst contentsHexAt pdf with
  | some br, some hx => some ⟨hexDecode hx, br, hx⟩
  | _, _ => none

def freetsaUrl : String := "http://freetsa.org/tsr"

def digicertUrl : String := "http://timestamp.digicert.com"

/-- `requestTimestamp` with its single-failover recursion made explicit by a
fuel argument (the source recurses at most once because the retry passes
the DigiCert URL, which disables the retry branch).  The network oracle
`net` maps a TSA URL to `some` processed token bytes on an HTTP 200
response, and to `none` on any error (non-200 status, timeout, transport
failure, all of which the source turns into a thrown error).  Returns the
result together with the list of URLs actually POSTed to, in order. -/
def requestTimestampGo (net : String → Option (List Nat)) :
    Nat → String → Option (List Nat) × List String
  | 0, _ => (none, [])
  | fuel + 1, url =>
    match net url with
    | some r => (some r, [url])
    | none =>
      if url = freetsaUrl then
        let rest := requestTimestampGo net fuel digicertUrl
        (rest.1, url :: rest.2)
      else (none, [url])

/-- Result of `requestTimestamp` (token bytes, or `none` when every
attempted TSA failed and the error propagates). -/
def requestTimestampRes (net : String → Option (List Nat)) (url : String) :
    Option (List Nat) :=
  (requestTimestampGo net 2 url).1

/-- The list of TSA URLs `requestTimestamp` POSTs to. -/
def requestTimestampCalls (net : String → Option (List Nat)) (url : String) :
    List String :=
  (requestTimestampGo net 2 url).2

/-- `addTimestampToPDF`: extract the CMS signature, request a token,
splice the token into the CMS structure (the forge ASN.1 re-encoding is
abstracted as the total function `embedTs`, faithful to
`embedTimestampInSignature`, which catches its own errors and never
throws), and replace the `/Contents` slot.  The surrounding try/catch
returns the input buffer on any failure. -/
def addTimestampToPDF (embedTs : List Nat → List Nat → List Nat)
    (net : String → Option (List Nat)) (tsaUrl : String) (pdf : List Char) :
    List Char :=
  match extractSignatureFromPDF pdf with
  | none => pdf
  | some ext =>
    match requestTimestampRes net tsaUrl with
    | none => pdf
    | some token => replaceSignatureInPDF pdf ext.signatureHex (embedTs ext.signature token)

def objLit : List Char := "obj".data

/-- Match `(\d+)\s+0\s+obj` at the head of `s`, returning the parsed object
number and the rest after the match. -/
def objMarkerAt (s : List Char) : Option (Nat × List Char) :=
  let ds := s.takeWhile Char.isDigit
  if ds.isEmpty then none
  else
    match dropWs1 (s.drop ds.length) with
    | none => none
    | some r2 =>
      match r2 with
      | '0' :: r3 =>
        match dropWs1 r3 with
        | none => none
        | some r4 =>
          match dropLit objLit r4 with
          | some r5 => some (digitsToNat ds, r5)
          | none => none
      | _ => none

/-- Global scan for `(\d+)\s+0\s+obj` (non-overlapping, leftmost first),
collecting the object numbers; fuel-driven, instantiated with the buffer
length so the fuel never runs out. -/
def objMarkersGo : Nat → List Char → List Nat
  | 0, _ => []
  | fuel + 1, s =>
    match objMarkerAt s with
    | some (n, rest) => n :: objMarkersGo fuel rest
    | none =>
      match s with
      | [] => []
      | _ :: t => objMarkersGo fuel t

/-- All `N 0 obj` marker numbers in the buffer, in match order. -/
def objMarkers (s : List Char) : List Nat := objMarkersGo s.length s

/-- `getNextObjectNumber`: `Math.max(existing numbers) + 1`, or 1 when the
buffer holds no `N 0 obj` marker. -/
def getNextObjectNumber (s : List Char) : Nat :=
  match objMarkers s with
  | [] => 1
  | m :: ms => (m :: ms).foldr max 0 + 1

def b64Alphabet : List Char :=
  "ABCDEFGHIJKLMNOPQRSTUVWXYZabcdefghijklmnopqrstuvwxyz0123456789+/".data

def b64Char (n : Nat) : Char := b64Alphabet.getD n 'A'

/-- `Buffer.toString('base64')` with standard padding. -/
def base64Chunks : List Nat → List Char
  | b1 :: b2 :: b3 :: rest =>
    b64Char (b1 / 4 % 64) :: b64Char ((b1 % 4) * 16 + b2 / 16 % 16) ::
      b64Char ((b2 % 16) * 4 + b3 / 64 % 4) :: b64Char (b3 % 64) :: base64Chunks rest
  | [b1, b2] =>
    [b64Char (b1 / 4 % 64), b64Char ((b1 % 4) * 16 + b2 / 16 % 16),
      b64Char ((b2 % 16) * 4), '=']
  | [b1] => [b64Char (b1 / 4 % 64), b64Char ((b1 % 4) * 16), '=', '=']
  | [] => []

def objOpenLit : List Char := " 0 obj\n<< /Length ".data

def streamMidLit : List Char := " >>\nstream\n".data

def streamEndLit : List Char := "\nendstream\nendobj\n".data

/-- Template `${n} 0 obj\n<< /Length ${b64.length} >>\nstream\n${b64}\nendstream\nendobj\n`
used for both OCSP-response and certificate stream objects (the source
declares `/Length` as the base64 text length in both cases). -/
def streamObjText (n : Nat) (payload : List Nat) : List Char :=
  natDigits n ++ objOpenLit ++ natDigits (base64Chunks payload).length ++
    streamMidLit ++ base64Chunks payload ++ streamEndLit

def arrOpenLit : List Char := " 0 obj\n[ ".data

def arrCloseLit : List Char := " ]\nendobj\n".data

def refSuffixLit : List Char := " 0 R".data

def spaceLit : List Char := " ".data

/-- Indirect reference text `${k} 0 R`. -/
def refText (k : Nat) : List Char := natDigits k ++ refSuffixLit

/-- Template `${n} 0 obj\n[ ${refs.join(' ')} ]\nendobj\n`. -/
def arrayObjText (n : Nat) (ks : List Nat) : List Char :=
  natDigits n ++ arrOpenLit ++ List.intercalate spaceLit (ks.map refText) ++ arrCloseLit

def dictOpenLit : List Char := " 0 obj\n<< ".data

def dictCloseLit : List Char := " >>\nendobj\n".data

def typeDssLit : List Char := "/Type /DSS".data

def ocspsKeyLit : List Char := " /OCSPs ".data

def certsKeyLit : List Char := " /Certs ".data

/-- Template for the DSS dictionary object. -/
def dssDictText (n : Nat) (ocspArr certArr : Option Nat) : List Char :=
  natDigits n ++ dictOpenLit ++ typeDssLit ++
    (match ocspArr with
     | some k => ocspsKeyLit ++ refText k
     | none => []) ++
    (match certArr with
     | some k => certsKeyLit ++ refText k
     | none => []) ++ dictCloseLit

/-- Emit one stream object per payload, numbering them consecutively from
`n`; returns (object texts, assigned numbers, next free number). -/
def emitStreams (payloads : List (List Nat)) (n : Nat) :
    List (List Char) × List Nat × Nat :=
  match payloads with
  | [] => ([], [], n)
  | p :: ps =>
    let r := emitStreams ps (n + 1)
    (streamObjText n p :: r.1, n :: r.2.1, r.2.2)

/-- Accumulated output of the DSS object-building phase of `embedDSS`. -/
structure DssBuild where
  objs : List (List Char)
  nums : List Nat
  dssNum : Nat
  next : Nat

/-- The object-building phase of `embedDSS`: OCSP stream objects (null
entries filtered out), their array object when at least one survives,
certificate stream objects, their array object when the certificate list
is non-empty, and finally the `/Type /DSS` dictionary — each taking the
next consecutive object number. -/
def buildDSS (start : Nat) (ocsps : List (Option (List Nat)))
    (certs : List (List Nat)) : DssBuild :=
  let kept := ocsps.filterMap id
  let eo := emitStreams kept start
  let n1 := eo.2.2
  let oArrObjs : List (List Char) :=
    if kept.isEmpty then [] else [arrayObjText n1 eo.2.1]
  let oArr : Option Nat := if kept.isEmpty then none else some n1
  let n2 := if kept.isEmpty then n1 else n1 + 1
  let ec := emitStreams certs n2
  let n3 := ec.2.2
  let cArrObjs : List (List Char) :=
    if certs.isEmpty then [] else [arrayObjText n3 ec.2.1]
  let cArr : Option Nat := if certs.isEmpty then none else some n3
  let n4 := if certs.isEmpty then n3 else n3 + 1
  let objs := eo.1 ++ oArrObjs ++ ec.1 ++ cArrObjs ++ [dssDictText n4 oArr cArr]
  let nums := eo.2.1 ++ (if kept.isEmpty then [] else [n1]) ++ ec.2.1 ++
    (if certs.isEmpty then [] else [n3]) ++ [n4]
  ⟨objs, nums, n4, n4 + 1⟩

def typeKeyLit : List Char := "/Type".data

def catalogLit : List Char := "/Catalog".data

/-- Match `\/Type\s*\/Catalog` (case-sensitive) at the head of `s`,
returning the rest after the match. -/
def catalogAt (s : List Char) : Option (List Char) :=
  match dropLit typeKeyLit s with
  | none => none
  | some r0 => dropLit catalogLit (r0.dropWhile isWs)

/-- Split the buffer at the first `/Type\s*\/Catalog` match: prefix before
the match and suffix after it. -/
def findCatalogSplitGo : List Char → List Char → Option (List Char × List Char)
  | _, [] => none
  | acc, c :: t =>
    match catalogAt (c :: t) with
    | some rest => some (acc.reverse, rest)
    | none => findCatalogSplitGo (c :: acc) t

def findCatalogSplit (s : List Char) : Option (List Char × List Char) :=
  findCatalogSplitGo [] s

def catalogReplLit : List Char := "/Type /Catalog /DSS ".data

/-- Replacement text `/Type /Catalog /DSS ${dssNum} 0 R`. -/
def catalogRepl (n : Nat) : List Char := catalogReplLit ++ natDigits n ++ refSuffixLit

/-- `pdfText.replace(/\/Type\s*\/Catalog/, ...)`: substitute the first
match, or return the text unchanged when there is none. -/
def catalogPatched (pdf : List Char) (n : Nat) : List Char :=
  match findCatalogSplit pdf with
  | none => pdf
  | some (a, b) => a ++ catalogRepl n ++ b

def xrefLit : List Char := "xref".data

/-- JS `String.lastIndexOf` for a literal pattern. -/
def lastIndexOfSubGo (pat : List Char) : Nat → Option Nat → List Char → Option Nat
  | _, best, [] => best
  | i, best, c :: t =>
    lastIndexOfSubGo pat (i + 1) (if litAt pat (c :: t) then some i else best) t

def lastIndexOfSub (pat s : List Char) : Option Nat :=
  lastIndexOfSubGo pat 0 none s

def newlineLit : List Char := "\n".data

/-- `embedDSS` (ltv-helper module): build the DSS objects, patch the
Catalog dictionary with the `/DSS` reference (returning the input buffer
unchanged when the patch leaves the text identical), and insert the
object text just before the last `xref` keyword (the missing-`xref` throw
is caught by the surrounding try/catch, which also returns the input
buffer unchanged). -/
def embedDSS (pdf : List Char) (ocsps : List (Option (List Nat)))
    (certs : List (List Nat)) : List Char :=
  let b := buildDSS (getNextObjectNumber pdf) ocsps certs
  let patched := catalogPatched pdf b.dssNum
  if patched = pdf then pdf
  else
    match lastIndexOfSub xrefLit patched with
    | none => pdf
    | some i =>
      patched.take i ++ List.intercalate newlineLit b.objs ++ newlineLit ++ patched.drop i

/-- The object numbers `embedDSS` assigns to the objects it emits for a
given buffer (the numbering the building phase consumes, in emission
order). -/
def dssAssignedNums (pdf : List Char) (ocsps : List (Option (List Nat)))
    (certs : List (List Nat)) : List Nat :=
  (buildDSS (getNextObjectNumber pdf) ocsps certs).nums

/-- Forge ASN.1 node as held in memory: a primitive node carries its
`.value` string (for an OID node we store the dotted-decimal view that
`forge.asn1.derToOid` produces from its DER bytes), a constructed node
carries its child list. -/
inductive Asn1 where
  | prim (tag : Nat) (s : String)
  | cons (tag : Nat) (children : List Asn1)

/-- `forge.asn1.derToOid(node.value)` on a child node: defined for a
primitive node (dotted view of its bytes); calling it on a constructed
node's array `.value` throws a TypeError inside forge, which the
surrounding try/catch of `getOCSPUrl` turns into a `null` result — we
signal that with `none`. -/
def derToOidView : Asn1 → Option String
  | .prim _ s => some s
  | .cons _ _ => none

/-- A node's `.value` when it is a string (primitive node), as tested by
`typeof url === 'string'`. -/
def asn1StrView : Asn1 → Option String
  | .prim _ s => some s
  | .cons _ _ => none

/-- An X.509 certificate as the claims need it: forge's parsed view
(distinguished-name fields, validity, extension list keyed by OID string
with the forge-parsed extension value) plus its DER encoding. -/
structure X509 where
  subjectCN : Option String
  issuerCN : Option String
  subjectEmail : Option String
  subjectO : Option String
  validFrom : Nat
  validTo : Nat
  extensions : List (String × Asn1)
  der : List Nat

def aiaOid : String := "1.3.6.1.5.5.7.1.1"

def ocspMethodOid : String := "1.3.6.1.5.5.7.48.1"

def httpLit : String := "http"

/-- The `for (const item of aiaAsn1.value)` loop body of `getOCSPUrl`:
first child's OID must be the OCSP access method and the second child's
string value must start with `http`; a mismatch skips to the next item; a
forge TypeError (constructed first child, or iterating a primitive item
whose string `.value` is non-empty) aborts the whole lookup via the
surrounding catch, yielding `none`. -/
def findOcspUrlItems : List Asn1 → Option String
  | [] => none
  | item :: rest =>
    match item with
    | .prim _ s => if s = "" then findOcspUrlItems rest else none
    | .cons _ [] => findOcspUrlItems rest
    | .cons _ (v0 :: vs) =>
      match derToOidView v0 with
      | none => none
      | some oid =>
        if oid = ocspMethodOid then
          match vs with
          | [] => findOcspUrlItems rest
          | v1 :: _ =>
            match asn1StrView v1 with
            | some url =>
              if url.startsWith httpLit then some url else findOcspUrlItems rest
            | none => findOcspUrlItems rest
        else findOcspUrlItems rest

/-- `getOCSPUrl`: find the AIA extension (OID 1.3.6.1.5.5.7.1.1) and scan
its parsed value for an OCSP access method (OID 1.3.6.1.5.5.7.48.1)
carrying an http(s) URI string. -/
def getOCSPUrl (cert : X509) : Option String :=
  match cert.extensions.find? (fun e => e.1 = aiaOid) with
  | none => none
  | some ext =>
    match ext.2 with
    | .cons _ items => findOcspUrlItems items
    | .prim _ _ => none

/-- `requestOCSP`: skip silently when the leaf carries no OCSP URL;
otherwise POST to that URL (request-body construction from SHA-1 hashes
is absorbed into the network oracle, whose `none` covers the non-200 /
timeout / transport failures the source catches and turns into `null`).
Also reports whether an HTTP request was issued at all. -/
def requestOCSP (net : String → Option (List Nat)) (cert _issuerCert : X509) :
    Option (List Nat) × Bool :=
  match getOCSPUrl cert with
  | none => (none, false)
  | some url => (net url, true)

/-- The self-signed test of the signing endpoint:
`cert.subject.getField('CN')?.value === cert.issuer.getField('CN')?.value`
(two absent CNs compare equal, as `undefined === undefined`). -/
def isSelfSigned (c : X509) : Bool := decide (c.subjectCN = c.issuerCN)

/-- Observable outcome of the LTV stage: the resulting buffer, whether an
OCSP HTTP request was issued, and the OCSP / certificate payloads handed
to `embedDSS`. -/
structure LtvOutcome where
  out : List Char
  ocspAttempted : Bool
  ocspsEmbedded : List (Option (List Nat))
  certsEmbedded : List (List Nat)

/-- The auto-LTV stage of the signing endpoint: on a self-signed leaf the
whole extracted chain is embedded with no OCSP material and no OCSP
request; with an issuer certificate present, OCSP is requested against
`certChain[1]` and the chain plus the response (when obtained) are
embedded; a single non-self-signed certificate is embedded alone.  An
empty chain skips the stage. -/
def ltvStage (net : String → Option (List Nat)) (signedPdf : List Char)
    (chain : List X509) : LtvOutcome :=
  match chain with
  | [] => ⟨signedPdf, false, [], []⟩
  | cert :: rest =>
    let ders := (cert :: rest).map X509.der
    if isSelfSigned cert then ⟨embedDSS signedPdf [] ders, false, [], ders⟩
    else
      match rest with
      | issuer :: _ =>
        let r := requestOCSP net cert issuer
        let os : List (Option (List Nat)) :=
          match r.1 with
          | some o => [some o]
          | none => []
        ⟨embedDSS signedPdf os ders, r.2, os, ders⟩
      | [] => ⟨embedDSS signedPdf [] ders, false, [], ders⟩

/-- A decrypted PKCS#12 container: the certificate bags in storage order
plus the private-key material. -/
structure P12 where
  certBags : List X509
  keyMaterial : List Nat

/-- Behaviour of `forge.pkcs12.pkcs12FromAsn1` (with the DER decode in
front of it): either a decrypted container or a thrown error message
(wrong password, corrupt container, ...).  Modelled as an oracle since
forge is an external library. -/
inductive ForgeOutcome where
  | ok (p12 : P12)
  | err (msg : String)

/-- The success payload of `parseP12Certificate` on the backend server:
metadata of the first certificate bag plus the raw `cert` and `p12`
objects themselves. -/
structure ParsedCertInfo where
  commonName : String
  email : String
  organization : String
  validFrom : Nat
  validTo : Nat
  cert : X509
  p12 : P12

/-- `{success: true, ...}` or `{success: false, error}`. -/
inductive ParseResult where
  | ok (info : ParsedCertInfo)
  | fail (error : String)

def noCertMsg : String := "No certificate found in P12 file"

def unknownSignerStr : String := "Unknown Signer"

/-- `getField(name)` yields `''` when the field is absent. -/
def fieldOrEmpty (o : Option String) : String := o.getD ""

/-- JS `a || b` on strings: `b` when `a` is empty. -/
def orDefaultStr (s d : String) : String := if s = "" then d else s

/-- `parseP12Certificate`: every forge throw is caught and becomes a
structured `{success: false, error}`; an empty certificate-bag list
throws (and is caught) likewise; otherwise the first bag is taken as the
signer certificate and its subject metadata is returned together with the
`cert` and `p12` objects. -/
def parseP12Certificate (forgeParse : List Nat → String → ForgeOutcome)
    (buf : List Nat) (pw : String) : ParseResult :=
  match forgeParse buf pw with
  | .err m => .fail m
  | .ok p12 =>
    match p12.certBags with
    | [] => .fail noCertMsg
    | cert :: _ =>
      .ok ⟨orDefaultStr (fieldOrEmpty cert.subjectCN) unknownSignerStr,
        fieldOrEmpty cert.subjectEmail, fieldOrEmpty cert.subjectO,
        cert.validFrom, cert.validTo, cert, p12⟩

/-- The JSON body sent by a successful `/api/parse-certificate` response:
exactly the fields remaining after `const { cert, p12, ...safeResult }`. -/
structure SafeCertInfo where
  success : Bool
  commonName : String
  email : String
  organization : String
  validFrom : Nat
  validTo : Nat

/-- Destructuring `const { cert, p12, ...safeResult } = result`. -/
def stripSensitive (i : ParsedCertInfo) : SafeCertInfo :=
  ⟨true, i.commonName, i.email, i.organization, i.validFrom, i.validTo⟩

/-- The metadata-only view of a certificate, for stating what the endpoint
may reveal. -/
def safeMetaOf (c : X509) : SafeCertInfo :=
  ⟨true, orDefaultStr (fieldOrEmpty c.subjectCN) unknownSignerStr,
    fieldOrEmpty c.subjectEmail, fieldOrEmpty c.subjectO, c.validFrom, c.validTo⟩

/-- Response of the `/api/parse-certificate` route. -/
inductive ParseCertResponse where
  | okJson (body : SafeCertInfo)
  | badRequest (status : Nat) (error : String)

/-- The `/api/parse-certificate` route body (after the upload has been
read): parse, then either serialize the stripped result or answer 400
with the structured error. -/
def parseCertificateEndpoint (forgeParse : List Nat → String → ForgeOutcome)
    (buf : List Nat) (pw : String) : ParseCertResponse :=
  match parseP12Certificate forgeParse buf pw with
  | .ok info => .okJson (stripSensitive info)
  | .fail e => .badRequest 400 e

/-- Response of the `/api/sign-pdf` route. -/
inductive SignResponse where
  | download (pdf : List Char)
  | errorJson (status : Nat) (msg : String)

def invalidCertMsg : String := "Invalid certificate or password: "

/-- The `/api/sign-pdf` route of the backend server (both uploads present):
flatten via pdf-lib (oracle; a `none` failure falls back to the original
buffer), validate the credential, add the signature placeholder
(node-signpdf oracle), sign (node-signpdf oracle); any thrown error is
caught and answered as a 500 `{error}` JSON with no PDF output. -/
def signPdfEndpoint (flatten : List Char → Option (List Char))
    (addPlaceholder : List Char → String → String → Nat → Except String (List Char))
    (signCms : List Char → List Nat → String → Except String (List Char))
    (forgeParse : List Nat → String → ForgeOutcome)
    (pdfBuf : List Char) (p12Buf : List Nat)
    (password reason location : String) : SignResponse :=
  let flattened := (flatten pdfBuf).getD pdfBuf
  match parseP12Certificate forgeParse p12Buf password with
  | .fail e => .errorJson 500 (invalidCertMsg ++ e)
  | .ok _ =>
    match addPlaceholder flattened reason location 16384 with
    | .error e => .errorJson 500 e
    | .ok ph =>
      match signCms ph p12Buf password with
      | .error e => .errorJson 500 e
      | .ok signed => .download signed

def sigNameLit : List Char := "/Sig".data

def ftLit : List Char := "/FT".data

def subFilterLit : List Char := "/SubFilter".data

def adbeLit : List Char := "/adbe.pkcs7".data

/-- Match `a` then `\s*` then `b`, all case-insensitively, at the head of
`s`. -/
def ciSeqAt (a b : List Char) (s : List Char) : Bool :=
  match dropLitCI a s with
  | none => false
  | some r => (dropLitCI b (r.dropWhile isWs)).isSome

/-- One alternative of `/\/Type\s*\/Sig|\/FT\s*\/Sig|\/SubFilter\s*\/adbe\.pkcs7/i`
matching at the head of `s`. -/
def sigMatchAt (s : List Char) : Bool :=
  ciSeqAt typeKeyLit sigNameLit s || ciSeqAt ftLit sigNameLit s ||
    ciSeqAt subFilterLit adbeLit s

/-- The `hasSig` regex test. -/
def hasSigScan (s : List Char) : Bool := scanAny sigMatchAt s

def dssNameLit : List Char := "/DSS".data

def vriLit : List Char := "/VRI".data

def filterLit : List Char := "/Filter".data

def flateLit : List Char := "/FlateDecode".data

/-- Match `\/DSS\s+\d+\s+0\s+R` (case-insensitive) at the head of `s`. -/
def dssRefAt (s : List Char) : Bool :=
  match dropLitCI dssNameLit s with
  | none => false
  | some r0 =>
    match dropWs1 r0 with
    | none => false
    | some r1 =>
      let ds := r1.takeWhile Char.isDigit
      if ds.isEmpty then false
      else
        match dropWs1 (r1.drop ds.length) with
        | none => false
        | some r2 =>
          match r2 with
          | '0' :: r3 =>
            match dropWs1 r3 with
            | none => false
            | some r4 =>
              match r4 with
              | c :: _ => ciEq 'R' c
              | [] => false
          | _ => false

/-- Test for a root-level `/DSS n 0 R` reference. -/
def dssRefScan (s : List Char) : Bool := scanAny dssRefAt s

/-- Test for `/Type\s*\/DSS` (case-insensitive). -/
def typeDssScan (s : List Char) : Bool := scanAny (ciSeqAt typeKeyLit dssNameLit) s

/-- Test for `/Type\s*\/VRI` (case-insensitive). -/
def typeVriScan (s : List Char) : Bool := scanAny (ciSeqAt typeKeyLit vriLit) s

/-- Test for `/Filter\s*\/FlateDecode` (case-insensitive) in a stream
object header. -/
def flateScan (s : List Char) : Bool := scanAny (ciSeqAt filterLit flateLit) s

/-- The DSS-marker test `/\/Type\s*\/DSS|\/DSS\s+\d+\s+0\s+R/i` applied to
stream contents. -/
def dssMarkScan (s : List Char) : Bool := typeDssScan s || dssRefScan s

def ltLtLit : List Char := "<<".data

def gtGtLit : List Char := ">>".data

def streamKwLit : List Char := "stream".data

def endstreamLit : List Char := "endstream".data

/-- First index of a literal occurrence of `pat`, as the position scan of a
global regex. -/
def firstIndexOfSubGo (pat : List Char) : Nat → List Char → Option Nat
  | _, [] => none
  | i, c :: t => if litAt pat (c :: t) then some i else firstIndexOfSubGo pat (i + 1) t

def firstIndexOfSub (pat s : List Char) : Option Nat :=
  firstIndexOfSubGo pat 0 s

/-- Remove trailing regex whitespace. -/
def trimWsRight (s : List Char) : List Char := (s.reverse.dropWhile isWs).reverse

/-- Remove leading and trailing whitespace (JS `String.trim` on latin1). -/
def trimWsBoth (s : List Char) : List Char :=
  ((s.dropWhile isWs).reverse.dropWhile isWs).reverse

/-- Match one stream object
`(\d+\s+0\s+obj\s*<<[^>]*>>)\s*stream\s*\n([\s\S]*?)\s*endstream`
at the head of `s`, returning (header capture, content capture, rest after
the match).  The backtracking `\s*\n` consumes the whitespace run after
`stream` up to and including its last newline; the lazy content capture
ends at the first later `endstream`, with the `\s*` in front of it eating
the whitespace immediately before that keyword. -/
def streamMatchAt (s : List Char) : Option (List Char × List Char × List Char) :=
  let ds := s.takeWhile Char.isDigit
  if ds.isEmpty then none
  else
    match dropWs1 (s.drop ds.length) with
    | none => none
    | some r2 =>
      match r2 with
      | '0' :: r3 =>
        match dropWs1 r3 with
        | none => none
        | some r4 =>
          match dropLit objLit r4 with
          | none => none
          | some r5 =>
            match dropLit ltLtLit (r5.dropWhile isWs) with
            | none => none
            | some r7 =>
              let ng := r7.takeWhile (fun c => c ≠ '>')
              match dropLit gtGtLit (r7.drop ng.length) with
              | none => none
              | some r9 =>
                let header := s.take (s.length - r9.length)
                match dropLit streamKwLit (r9.dropWhile isWs) with
                | none => none
                | some r11 =>
                  let run := r11.takeWhile isWs
                  match lastIndexOfSub newlineLit run with
                  | none => none
                  | some k =>
                    let u := r11.drop (k + 1)
                    match firstIndexOfSub endstreamLit u with
                    | none => none
                    | some e =>
                      some (header, trimWsRight (u.take e),
                        u.drop (e + endstreamLit.length))
      | _ => none

/-- Global scan with the stream-object regex, collecting (header, content)
pairs; fuel-driven and instantiated with the buffer length. -/
def scanStreamsGo : Nat → List Char → List (List Char × List Char)
  | 0, _ => []
  | fuel + 1, s =>
    match streamMatchAt s with
    | some (h, c, rest) => (h, c) :: scanStreamsGo fuel rest
    | none =>
      match s with
      | [] => []
      | _ :: t => scanStreamsGo fuel t

def scanStreams (s : List Char) : List (List Char × List Char) :=
  scanStreamsGo s.length s

/-- The body of the stream-scanning while-loop: FlateDecode streams are
inflated through the zlib oracle (`none` models an `inflateSync` throw,
which the source skips over) and their inflated text is scanned for DSS
markers; other stream bodies are scanned as-is; the loop stops at the
first hit. -/
def streamLoop (inflate : List Char → Option (List Char)) :
    List (List Char × List Char) → Bool
  | [] => false
  | (hdr, content) :: rest =>
    if flateScan hdr then
      match inflate content with
      | some d => if dssMarkScan d then true else streamLoop inflate rest
      | none => streamLoop inflate rest
    else if dssMarkScan content then true else streamLoop inflate rest

/-- Step 3 of the LTV detection: scan at most the first 50 stream objects. -/
def streamScan (inflate : List Char → Option (List Char)) (s : List Char) : Bool :=
  streamLoop inflate ((scanStreams s).take 50)

/-- The four-step `hasLTV` resolution, in source order with early exit. -/
def hasLTVScan (inflate : List Char → Option (List Char)) (s : List Char) : Bool :=
  if dssRefScan s then true
  else if typeDssScan s then true
  else if streamScan inflate s then true
  else typeVriScan s

/-- Pass 1 of `decodePdfString`: the global replace of
`\\([0-3][0-7]{2})` by the character with that octal code (a non-matching
backslash is copied and scanning resumes at the next character). -/
def octalPass : List Char → List Char
  | '\\' :: d1 :: d2 :: d3 :: rest =>
    if ('0' ≤ d1 && d1 ≤ '3') && ('0' ≤ d2 && d2 ≤ '7') && ('0' ≤ d3 && d3 ≤ '7') then
      Char.ofNat (64 * (d1.toNat - 48) + 8 * (d2.toNat - 48) + (d3.toNat - 48)) ::
        octalPass rest
    else '\\' :: octalPass (d1 :: d2 :: d3 :: rest)
  | c :: rest => c :: octalPass rest
  | [] => []

/-- A global replace of the two-character sequence `a b` by the single
character `r` (each of the later `decodePdfString` passes). -/
def pairPass (a b r : Char) : List Char → List Char
  | x :: y :: rest =>
    if x = a && y = b then r :: pairPass a b r rest
    else x :: pairPass a b r (y :: rest)
  | s => s

/-- `decodePdfString`: seven successive global replaces, in source order —
octal escapes, then `\(`, `\)`, `\\`, `\n`, `\r`, `\t`. -/
def decodePdfString (s : List Char) : List Char :=
  pairPass '\\' 't' '\t' (pairPass '\\' 'r' '\r' (pairPass '\\' 'n' '\n'
    (pairPass '\\' '\\' '\\' (pairPass '\\' ')' ')' (pairPass '\\' '(' '('
      (octalPass s))))))

/-- Match `key\s*\(([^)]*(?:\\\)[^)]*)*)\)` at the head of `s`.  The greedy
`[^)]*` always reaches the first `)` and the continuation group then
matches zero iterations, so the capture is exactly the run of
non-`)` characters. -/
def parenCaptureAt (key : List Char) (s : List Char) : Option (List Char) :=
  match dropLit key s with
  | none => none
  | some r0 =>
    match r0.dropWhile isWs with
    | '(' :: r1 =>
      let cap := r1.takeWhile (fun c => c ≠ ')')
      match r1.drop cap.length with
      | ')' :: _ => some cap
      | _ => none
    | _ => none

/-- The `extract` helper: first match of the keyed parenthesised string,
passed through `decodePdfString`; the empty string when there is no
match. -/
def extractParen (key : List Char) (s : List Char) : List Char :=
  match scanFirst (parenCaptureAt key) s with
  | some cap => decodePdfString cap
  | none => []

def nameKeyLit : List Char := "/Name".data

def tKeyLit : List Char := "/T".data

def reasonKeyLit : List Char := "/Reason".data

def locationKeyLit : List Char := "/Location".data

def signature1Lit : List Char := "Signature1".data

/-- Signer-name resolution: `/Name (...)`, falling back to `/T (...)`,
falling back to the literal `Signature1`. -/
def signerOf (s : List Char) : List Char :=
  let n := extractParen nameKeyLit s
  if n.isEmpty || (trimWsBoth n).isEmpty then
    let t := extractParen tKeyLit s
    if t.isEmpty then signature1Lit else t
  else n

def mKeyLit : List Char := "/M".data

def dColonLit : List Char := "(D:".data

/-- Match `\/M\s*\(D:(\d{14})` at the head of `s`. -/
def date14At (s : List Char) : Option (List Char) :=
  match dropLit mKeyLit s with
  | none => none
  | some r0 =>
    match dropLit dColonLit (r0.dropWhile isWs) with
    | none => none
    | some r1 =>
      let ds := r1.takeWhile Char.isDigit
      if 14 ≤ ds.length then some (ds.take 14) else none

def slashSepLit : List Char := "/".data

def colonLit : List Char := ":".data

/-- Reformat `YYYYMMDDHHmmSS` as `DD/MM/YYYY HH:mm:ss`. -/
def fmtDate (raw : List Char) : List Char :=
  (raw.drop 6).take 2 ++ slashSepLit ++ (raw.drop 4).take 2 ++ slashSepLit ++
    raw.take 4 ++ spaceLit ++ (raw.drop 8).take 2 ++ colonLit ++
    (raw.drop 10).take 2 ++ colonLit ++ (raw.drop 12).take 2

/-- The date field of the detector result. -/
def dateOf (s : List Char) : List Char :=
  let raw :=
    match scanFirst date14At s with
    | some d => decodePdfString d
    | none => []
  if 14 ≤ raw.length then fmtDate raw else []

/-- Detector output.  When `hasSig` is false the source returns the bare
object `{hasSig: false}`; the remaining fields are modelled as their
defaults. -/
structure SigCheckResult where
  hasSig : Bool
  hasLTV : Bool
  signer : List Char
  reason : List Char
  location : List Char
  date : List Char

/-- `checkPdfSignature` over a binary-decoded PDF buffer, with the zlib
inflater passed as an oracle. -/
def checkPdfSignature (inflate : List Char → Option (List Char))
    (pdfText : List Char) : SigCheckResult :=
  if hasSigScan pdfText then
    ⟨true, hasLTVScan inflate pdfText, signerOf pdfText,
      extractParen reasonKeyLit pdfText, extractParen locationKeyLit pdfText,
      dateOf pdfText⟩
  else ⟨false, false, [], [], [], []⟩

/-- Case-insensitive literal substring containment — the spec's reading of
"the buffer contains (case-insensitive) the marker". -/
def containsCI (pat : List Char) (s : List Char) : Bool :=
  scanAny (fun t => litAtCI pat t) s

def typeSigMarkerLit : List Char := "/Type /Sig".data

def ftSigMarkerLit : List Char := "/FT /Sig".data

def subFilterMarkerLit : List Char := "/SubFilter /adbe.pkcs7".data

/-! Concrete inputs used by counterexamples and witnesses. -/

def pdfC1 : List Char := contentsToken ['a', 'b']

def sigC1 : List Nat := [171, 205]

def netNone : String → Option (List Nat) := fun _ => none

def inflNone : List Char → Option (List Char) := fun _ => none

def embedIdTs : List Nat → List Nat → List Nat := fun c _ => c

def pdfT2 : List Char := "x".data

def helloLit : List Char := "hello".data

def pdfW4 : List Char := "2 0 obj".data

def cnTest : String := "Test"

def cnCA : String := "CA"

def cnRoot : String := "Root"

def certA : X509 := ⟨some cnTest, some cnTest, none, none, 0, 0, [], [1]⟩

def certB : X509 := ⟨some cnCA, some cnRoot, none, none, 0, 0, [], [2]⟩

def badPwMsg : String := "PKCS#12 MAC could not be verified. Invalid password?"

def fpErr : List Nat → String → ForgeOutcome := fun _ _ => .err badPwMsg

def flattenNone : List Char → Option (List Char) := fun _ => none

def apOk : List Char → String → String → Nat → Except String (List Char) :=
  fun b _ _ _ => .ok b

def sgOk : List Char → List Nat → String → Except String (List Char) :=
  fun b _ _ => .ok b

def emptyStr : String := ""

def s7 : List Char := "/Type/Sig".data

def s8 : List Char :=
  "/Type /Sig 1 0 obj << /Filter /FlateDecode >>\nstream\nZZ\nendstream".data

def zzLit : List Char := "ZZ".data

def typeDssMarkerLit : List Char := "/Type /DSS".data

def infl8 : List Char → Option (List Char) :=
  fun c => if c = zzLit then some typeDssMarkerLit else none

def bbnLit : List Char := ['\\', '\\', 'n']

def cnAlice : String := "Alice"

def certM1 : X509 := ⟨some cnAlice, some cnRoot, none, none, 5, 9, [], [1, 1]⟩

def certM2 : X509 := ⟨some cnAlice, some cnRoot, none, none, 5, 9, [], [2, 2]⟩

def fpA : List Nat → String → ForgeOutcome := fun _ _ => .ok ⟨[certM1], [9, 9]⟩

def fpB : List Nat → String → ForgeOutcome := fun _ _ => .ok ⟨[certM2], []⟩

/-! Helper lemmas. -/

theorem litAt_length_le : ∀ (p s : List Char), litAt p s = true → p.length ≤ s.length
  | [], _, _ => Nat.zero_le _
  | _ :: _, [], h => by simp [litAt] at h
  | p :: ps, c :: cs, h => by
    simp only [litAt, Bool.and_eq_true, decide_eq_true_eq] at h
    exact Nat.succ_le_succ (litAt_length_le ps cs h.2)

theorem replaceFirst_length (pat repl : List Char) (hl : repl.length = pat.length) :
    ∀ s : List Char, (replaceFirst pat repl s).length = s.length
  | [] => by
    by_cases hp : pat.isEmpty
    · have hpe : pat = [] := by simpa using hp
      have hre : repl = [] := by
        have := hl
        rw [hpe] at this
        simpa using List.length_eq_zero.mp this
      simp [replaceFirst, hp, hre]
    · simp [replaceFirst, hp]
  | c :: cs => by
    by_cases hm : litAt pat (c :: cs) = true
    · have hle := litAt_length_le pat (c :: cs) hm
      simp only [replaceFirst, hm, if_true, List.length_append, List.length_drop]
      omega
    · simp only [replaceFirst, hm, if_false, Bool.false_eq_true, List.length_cons]
      rw [replaceFirst_length pat repl hl cs]

theorem contentsToken_length (h : List Char) :
    (contentsToken h).length = h.length + 12 := by
  simp [contentsToken, contentsKeyLit, gtLit]

theorem padEnd_length_of_le (s : List Char) (n : Nat) (h : s.length ≤ n) :
    (padEnd s n).length = n := by
  simp [padEnd]
  omega

/-- C1: the claim states that for every signed PDF buffer and timestamp
token the timestamp-embedding `replaceSignatureInPDF` leaves the byte
length of the PDF unchanged, abandoning the embedding when the new hex
encoding is longer than the placeholder.  The inline netlify variant
violates this: with a 2-character placeholder and a 2-byte (4-hex-char)
new signature, the buffer grows. -/
theorem C1_counterexample :
    (replaceSignatureInPDF1 pdfC1 ['a', 'b'] sigC1).length ≠ pdfC1.length := by
  decide

/-- C1 (amended): the tsa-helper `replaceSignatureInPDF` always preserves
the byte length and returns the prior buffer unchanged whenever the new
hex encoding exceeds the placeholder width; the inline netlify variant
`replaceSignatureInPDF1` preserves the length only when the new hex
encoding fits the placeholder (it performs no overflow check). -/
theorem C1_thm (pdf oldHex : List Char) (newSig : List Nat) :
    (replaceSignatureInPDF pdf oldHex newSig).length = pdf.length
    ∧ (oldHex.length < (hexEncode newSig).length →
        replaceSignatureInPDF pdf oldHex newSig = pdf)
    ∧ ((hexEncode newSig).length ≤ oldHex.length →
        (replaceSignatureInPDF1 pdf oldHex newSig).length = pdf.length) := by
  have hfit : ∀ hfi : (hexEncode newSig).length ≤ oldHex.length,
      (replaceFirst (contentsToken oldHex)
        (contentsToken (padEnd (hexEncode newSig) oldHex.length)) pdf).length =
        pdf.length := by
    intro hfi
    apply replaceFirst_length
    rw [contentsToken_length, contentsToken_length, padEnd_length_of_le _ _ hfi]
  refine ⟨?_, ?_, ?_⟩
  · by_cases h : oldHex.length < (hexEncode newSig).length
    · simp [replaceSignatureInPDF, h]
    · simp only [replaceSignatureInPDF, if_neg h]
      exact hfit (Nat.le_of_not_lt h)
  · intro h
    simp [replaceSignatureInPDF, h]
  · intro h
    simpa only [replaceSignatureInPDF1] using hfit h

/-- C1 witness: a concrete overflow is abandoned with the buffer intact. -/
theorem C1_witness : replaceSignatureInPDF pdfC1 ['a'] sigC1 = pdfC1 :=
  (C1_thm pdfC1 ['a'] sigC1).2.1 (by decide)

/-- C2: when the POST to the primary TSA URL fails, `requestTimestamp`
retries exactly once against the single alternate TSA URL (the trace of
POSTed URLs is exactly `[freetsa, digicert]`); when that retry also fails
the error propagates and `addTimestampToPDF` catches it, returning the
previously-signed buffer byte-for-byte unchanged — in particular no
timestamp attribute is spliced into the CMS structure. -/
theorem C2_thm (net : String → Option (List Nat))
    (embedTs : List Nat → List Nat → List Nat) (pdf : List Char)
    (h1 : net freetsaUrl = none) :
    requestTimestampCalls net freetsaUrl = [freetsaUrl, digicertUrl]
    ∧ (net digicertUrl = none →
        requestTimestampRes net freetsaUrl = none
        ∧ addTimestampToPDF embedTs net freetsaUrl pdf = pdf) := by
  have hne : ¬ (digicertUrl = freetsaUrl) := by decide
  constructor
  · cases hd : net digicertUrl <;>
      simp [requestTimestampCalls, requestTimestampGo, h1, hd, hne]
  · intro h2
    have hres : requestTimestampRes net freetsaUrl = none := by
      simp [requestTimestampRes, requestTimestampGo, h1, h2, hne]
    refine ⟨hres, ?_⟩
    cases hext : extractSignatureFromPDF pdf <;>
      simp [addTimestampToPDF, hext, hres]

/-- C2 witness: with both TSA hosts down, the call trace is the primary
followed by the single fallback, and the signed buffer is returned
unchanged. -/
theorem C2_witness :
    requestTimestampCalls netNone freetsaUrl = [freetsaUrl, digicertUrl]
    ∧ addTimestampToPDF embedIdTs netNone freetsaUrl pdfT2 = pdfT2 :=
  ⟨(C2_thm netNone embedIdTs pdfT2 rfl).1,
    ((C2_thm netNone embedIdTs pdfT2 rfl).2 rfl).2⟩

/-- C3: whenever the DSS-embedding stage fails — the Catalog patch leaves
the text unchanged because no `/Type /Catalog` occurs, or no `xref`
keyword is found in the patched text (the source throw for that case is
caught by the surrounding try/catch) — `embedDSS` returns the
previously-obtained signed buffer byte-for-byte unchanged. -/
theorem C3_thm (pdf : List Char) (ocsps : List (Option (List Nat)))
    (certs : List (List Nat)) :
    (findCatalogSplit pdf = none → embedDSS pdf ocsps certs = pdf)
    ∧ (lastIndexOfSub xrefLit
        (catalogPatched pdf
          (buildDSS (getNextObjectNumber pdf) ocsps certs).dssNum) = none →
        embedDSS pdf ocsps certs = pdf) := by
  constructor
  · intro h
    simp [embedDSS, catalogPatched, h]
  · intro h
    by_cases hp :
        catalogPatched pdf (buildDSS (getNextObjectNumber pdf) ocsps certs).dssNum = pdf
    · simp [embedDSS, hp]
    · simp [embedDSS, hp, h]

/-- C3 witness: a buffer with no Catalog (and no xref) passes through
unchanged. -/
theorem C3_witness : embedDSS helloLit [] [] = helloLit :=
  (C3_thm helloLit [] []).1 (by decide)

theorem rangeGlue (s m n : Nat) :
    List.range' s m ++ List.range' (s + m) n = List.range' s (m + n) := by
  have h := List.range'_append s m n 1
  rw [Nat.one_mul] at h
  rw [Nat.add_comm m n]
  exact h

theorem rangeOne (x : Nat) : List.range' x 1 = [x] := rfl

theorem emitStreams_spec : ∀ (ps : List (List Nat)) (n : Nat),
    (emitStreams ps n).2.1 = List.range' n ps.length
    ∧ (emitStreams ps n).2.2 = n + ps.length
  | [], n => by simp [emitStreams]
  | p :: ps, n => by
    have ih := emitStreams_spec ps (n + 1)
    simp only [emitStreams, List.length_cons]
    constructor
    · rw [List.range'_succ]
      simp [ih.1]
    · rw [ih.2]
      omega

theorem rangeGlueH (s m j n L : Nat) (hj : j = s + m) (hL : L = m + n) :
    List.range' s m ++ List.range' j n = List.range' s L := by
  subst hj
  subst hL
  exact rangeGlue s m n

theorem buildDSS_range (start : Nat) (o : List (Option (List Nat)))
    (c : List (List Nat)) :
    ∃ L, (buildDSS start o c).nums = List.range' start L := by
  obtain ⟨e1a, e1b⟩ := emitStreams_spec (o.filterMap id) start
  by_cases h1 : (o.filterMap id).isEmpty
  · have hknil : o.filterMap id = [] := by simpa using h1
    rw [hknil] at e1a e1b
    by_cases h2 : c.isEmpty
    · have hcnil : c = [] := by simpa using h2
      refine ⟨1, ?_⟩
      simp [buildDSS, hknil, hcnil, emitStreams]
    · obtain ⟨e2a, e2b⟩ := emitStreams_spec c start
      refine ⟨c.length + 2, ?_⟩
      simp only [buildDSS, hknil, h2]
      simp only [List.filterMap_nil, List.isEmpty_nil, if_true, if_false,
        Bool.false_eq_true, emitStreams]
      rw [e2a, e2b]
      simp only [List.append_nil, List.nil_append, List.append_assoc]
      rw [← rangeOne (start + c.length), ← rangeOne (start + c.length + 1)]
      rw [rangeGlueH (start + c.length) 1 (start + c.length + 1) 1 2 (by omega) (by omega)]
      rw [rangeGlueH start c.length (start + c.length) 2 (c.length + 2) (by omega) (by omega)]
  · by_cases h2 : c.isEmpty
    · have hcnil : c = [] := by simpa using h2
      refine ⟨(o.filterMap id).length + 2, ?_⟩
      simp only [buildDSS, h1, hcnil, if_false, Bool.false_eq_true, emitStreams,
        List.isEmpty_nil, if_true]
      rw [e1a, e1b]
      simp only [List.append_nil, List.nil_append, List.append_assoc]
      rw [← rangeOne (start + (o.filterMap id).length),
        ← rangeOne (start + (o.filterMap id).length + 1)]
      rw [rangeGlueH (start + (o.filterMap id).length) 1
        (start + (o.filterMap id).length + 1) 1 2 (by omega) (by omega)]
      rw [rangeGlueH start (o.filterMap id).length (start + (o.filterMap id).length) 2
        ((o.filterMap id).length + 2) (by omega) (by omega)]
    · obtain ⟨e2a, e2b⟩ :=
        emitStreams_spec c ((emitStreams (o.filterMap id) start).2.2 + 1)
      refine ⟨(o.filterMap id).length + 1 + c.length + 2, ?_⟩
      simp only [buildDSS, h1, h2, if_false, Bool.false_eq_true]
      rw [e1a, e2a, e2b, e1b]
      simp only [List.append_assoc]
      rw [← rangeOne (start + (o.filterMap id).length),
        ← rangeOne (start + (o.filterMap id).length + 1 + c.length),
        ← rangeOne (start + (o.filterMap id).length + 1 + c.length + 1)]
      rw [rangeGlueH (start + (o.filterMap id).length + 1 + c.length) 1
        (start + (o.filterMap id).length + 1 + c.length + 1) 1 2 (by omega) (by omega)]
      rw [rangeGlueH (start + (o.filterMap id).length + 1) c.length
        (start + (o.filterMap id).length + 1 + c.length) 2 (c.length + 2)
        (by omega) (by omega)]
      rw [rangeGlueH (start + (o.filterMap id).length) 1
        (start + (o.filterMap id).length + 1) (c.length + 2) (1 + (c.length + 2))
        (by omega) (by omega)]
      rw [rangeGlueH start (o.filterMap id).length (start + (o.filterMap id).length)
        (1 + (c.length + 2)) ((o.filterMap id).length + 1 + c.length + 2)
        (by omega) (by omega)]

theorem le_foldr_max : ∀ (l : List Nat), ∀ m ∈ l, m ≤ l.foldr max 0
  | [], m, hm => by simp at hm
  | a :: t, m, hm => by
    rcases List.mem_cons.mp hm with h | h
    · subst h
      exact Nat.le_max_left _ _
    · exact Nat.le_trans (le_foldr_max t m h) (Nat.le_max_right _ _)

theorem buildDSS_nums_ne_nil (start : Nat) (o : List (Option (List Nat)))
    (c : List (List Nat)) : (buildDSS start o c).nums ≠ [] := by
  simp [buildDSS]

theorem dssAssignedNums_range (pdf : List Char) (o : List (Option (List Nat)))
    (c : List (List Nat)) :
    ∃ L, 1 ≤ L ∧ dssAssignedNums pdf o c = List.range' (getNextObjectNumber pdf) L := by
  obtain ⟨L, hL⟩ := buildDSS_range (getNextObjectNumber pdf) o c
  refine ⟨L, ?_, hL⟩
  rcases Nat.eq_zero_or_pos L with h0 | h1
  · exfalso
    apply buildDSS_nums_ne_nil (getNextObjectNumber pdf) o c
    rw [hL, h0]
    rfl
  · exact h1

/-- C4: the numbers `embedDSS` assigns to newly emitted objects form the
consecutive run starting at `getNextObjectNumber`, hence are strictly
increasing with no reuse inside one pass; the first of them is
`max(existing N-0-obj markers) + 1` whenever the buffer has markers; and
every assigned number differs from every object number already present in
the buffer, so re-running the embedding on an already-augmented document
cannot collide with an existing object. -/
theorem C4_thm (pdf : List Char) (o : List (Option (List Nat)))
    (c : List (List Nat)) :
    dssAssignedNums pdf o c =
      List.range' (getNextObjectNumber pdf) (dssAssignedNums pdf o c).length
    ∧ (dssAssignedNums pdf o c).Pairwise (· < ·)
    ∧ (∀ n ∈ dssAssignedNums pdf o c, ∀ m ∈ objMarkers pdf, m < n)
    ∧ (objMarkers pdf ≠ [] →
        (dssAssignedNums pdf o c).head? =
          some ((objMarkers pdf).foldr max 0 + 1)) := by
  obtain ⟨L, hL1, hL⟩ := dssAssignedNums_range pdf o c
  have hlen : (dssAssignedNums pdf o c).length = L := by
    rw [hL]
    exact List.length_range' _ _ _
  have hstart : ∀ m ∈ objMarkers pdf, m < getNextObjectNumber pdf := by
    intro m hm
    have hne : objMarkers pdf ≠ [] := by
      intro h
      rw [h] at hm
      simp at hm
    have : getNextObjectNumber pdf = (objMarkers pdf).foldr max 0 + 1 := by
      unfold getNextObjectNumber
      cases hmk : objMarkers pdf with
      | nil => exact absurd hmk hne
      | cons a t => simp
    rw [this]
    exact Nat.lt_succ_of_le (le_foldr_max _ m hm)
  refine ⟨by rw [hlen, hL], ?_, ?_, ?_⟩
  · rw [hL]
    exact List.pairwise_lt_range' _ _ 1 (by omega)
  · intro n hn m hm
    rw [hL] at hn
    have hge : getNextObjectNumber pdf ≤ n := by
      have := List.mem_range'_1.mp hn
      omega
    exact Nat.lt_of_lt_of_le (hstart m hm) hge
  · intro hne
    rw [hL]
    obtain ⟨L', rfl⟩ : ∃ L', L = L' + 1 := ⟨L - 1, by omega⟩
    rw [List.range'_succ]
    have : getNextObjectNumber pdf = (objMarkers pdf).foldr max 0 + 1 := by
      unfold getNextObjectNumber
      cases hmk : objMarkers pdf with
      | nil => exact absurd hmk hne
      | cons a t => simp
    simp [this]

/-- C4 witness: on a buffer whose only marker is object 2, the first newly
assigned number is 3 = max + 1. -/
theorem C4_witness :
    (dssAssignedNums pdfW4 [] []).head? =
      some ((objMarkers pdfW4).foldr max 0 + 1) :=
  (C4_thm pdfW4 [] []).2.2.2 (by decide)

/-- C5: the claim states that a self-signed leaf leads to "embed the leaf
certificate only".  The code passes the whole extracted chain to
`embedDSS`: with the self-signed `certA` accompanied by a second
certificate, the embedded certificate list is not the leaf alone. -/
theorem C5_counterexample :
    (ltvStage netNone [] [certA, certB]).certsEmbedded ≠ [certA.der] := by
  decide

/-- C5 (amended): on a self-signed leaf the stage embeds the entire
extracted chain (which is the leaf alone exactly when the chain holds one
certificate) with no OCSP material and issues no OCSP request; when the
leaf is not self-signed and an issuer certificate is present, an OCSP
HTTP request is issued precisely when `getOCSPUrl` finds an AIA extension
(OID 1.3.6.1.5.5.7.1.1) carrying an OCSP access-method (OID
1.3.6.1.5.5.7.48.1) http URL on the leaf, and otherwise the request is
skipped silently and the certificates alone are embedded; a single
non-self-signed certificate is likewise embedded alone. -/
theorem C5_thm (net : String → Option (List Nat)) (pdf : List Char)
    (cert : X509) (rest : List X509) :
    (isSelfSigned cert = true →
      ltvStage net pdf (cert :: rest) =
        ⟨embedDSS pdf [] ((cert :: rest).map X509.der), false, [],
          (cert :: rest).map X509.der⟩)
    ∧ (isSelfSigned cert = false → ∀ issuer rest2, rest = issuer :: rest2 →
        ((ltvStage net pdf (cert :: rest)).ocspAttempted = (getOCSPUrl cert).isSome
          ∧ (getOCSPUrl cert = none →
              ltvStage net pdf (cert :: rest) =
                ⟨embedDSS pdf [] ((cert :: rest).map X509.der), false, [],
                  (cert :: rest).map X509.der⟩)))
    ∧ (isSelfSigned cert = false → rest = [] →
        ltvStage net pdf (cert :: rest) =
          ⟨embedDSS pdf [] [cert.der], false, [], [cert.der]⟩) := by
  refine ⟨?_, ?_, ?_⟩
  · intro h
    simp [ltvStage, h]
  · intro h issuer rest2 hr
    subst hr
    constructor
    · cases hg : getOCSPUrl cert <;> simp [ltvStage, h, requestOCSP, hg]
    · intro hg
      simp [ltvStage, h, requestOCSP, hg]
  · intro h hr
    subst hr
    simp [ltvStage, h]

/-- C5 witness: a self-signed singleton chain is embedded whole with no
OCSP attempt; a non-self-signed leaf without an AIA/OCSP URL never
triggers an OCSP request even with an issuer present. -/
theorem C5_witness :
    (ltvStage netNone [] [certA]).certsEmbedded = [certA.der]
    ∧ (ltvStage netNone [] [certB, certA]).ocspAttempted = false := by
  have h1 := (C5_thm netNone [] certA []).1 (by decide)
  have h2 := ((C5_thm netNone [] certB [certA]).2.1 (by decide) certA [] rfl).1
  constructor
  · rw [h1]
    rfl
  · exact h2.trans (by decide)

/-- C6: when forge rejects the PKCS#12 container (wrong password on a
structurally valid buffer throws inside `pkcs12FromAsn1`),
`parseP12Certificate` catches the throw and returns the structured
failure `{success: false, error}`; the signing endpoint then aborts with
a structured 500 `{error}` JSON response and never produces an output
PDF, whatever the flattening, placeholder and signing collaborators would
have done. -/
theorem C6_thm (flatten : List Char → Option (List Char))
    (addPlaceholder : List Char → String → String → Nat → Except String (List Char))
    (signCms : List Char → List Nat → String → Except String (List Char))
    (forgeParse : List Nat → String → ForgeOutcome)
    (pdfBuf : List Char) (p12Buf : List Nat) (pw reason location m : String)
    (h : forgeParse p12Buf pw = .err m) :
    parseP12Certificate forgeParse p12Buf pw = .fail m
    ∧ signPdfEndpoint flatten addPlaceholder signCms forgeParse pdfBuf p12Buf
        pw reason location = .errorJson 500 (invalidCertMsg ++ m) := by
  constructor
  · simp [parseP12Certificate, h]
  · simp [signPdfEndpoint, parseP12Certificate, h]

/-- C6 witness: a concrete bad-password parse yields the structured error
response. -/
theorem C6_witness :
    signPdfEndpoint flattenNone apOk sgOk fpErr [] [] emptyStr emptyStr emptyStr =
      .errorJson 500 (invalidCertMsg ++ badPwMsg) :=
  (C6_thm flattenNone apOk sgOk fpErr [] [] emptyStr emptyStr emptyStr badPwMsg rfl).2

/-- C10: a successful credential-inspection response is exactly the
metadata record `{success, commonName, email, organization, validFrom,
validTo}` of the first certificate bag — the `cert` and `p12` fields are
stripped before serialization — and the response is unchanged under any
variation of the certificate DER, the remaining chain, or the decrypted
container's key material that preserves that metadata, so the private
material cannot leave the server. -/
theorem C10_thm (fp : List Nat → String → ForgeOutcome) (buf : List Nat)
    (pw : String) (p12 : P12) (cert : X509) (rest : List X509)
    (h : fp buf pw = .ok p12) (hb : p12.certBags = cert :: rest) :
    parseCertificateEndpoint fp buf pw = .okJson (safeMetaOf cert)
    ∧ ∀ (fp2 : List Nat → String → ForgeOutcome) (p12b : P12) (cert2 : X509)
        (rest2 : List X509),
        fp2 buf pw = .ok p12b → p12b.certBags = cert2 :: rest2 →
        cert.subjectCN = cert2.subjectCN → cert.subjectEmail = cert2.subjectEmail →
        cert.subjectO = cert2.subjectO → cert.validFrom = cert2.validFrom →
        cert.validTo = cert2.validTo →
        parseCertificateEndpoint fp buf pw = parseCertificateEndpoint fp2 buf pw := by
  have hmain : parseCertificateEndpoint fp buf pw = .okJson (safeMetaOf cert) := by
    simp [parseCertificateEndpoint, parseP12Certificate, h, hb, stripSensitive,
      safeMetaOf]
  refine ⟨hmain, ?_⟩
  intro fp2 p12b cert2 rest2 h2 hb2 e1 e2 e3 e4 e5
  have hmain2 : parseCertificateEndpoint fp2 buf pw = .okJson (safeMetaOf cert2) := by
    simp [parseCertificateEndpoint, parseP12Certificate, h2, hb2, stripSensitive,
      safeMetaOf]
  rw [hmain, hmain2, safeMetaOf, safeMetaOf, e1, e2, e3, e4, e5]

/-- C10 witness: two containers agreeing on the first bag's metadata but
differing in certificate DER and key material produce identical
responses. -/
theorem C10_witness :
    parseCertificateEndpoint fpA [] emptyStr = parseCertificateEndpoint fpB [] emptyStr :=
  (C10_thm fpA [] emptyStr ⟨[certM1], [9, 9]⟩ certM1 [] rfl rfl).2 fpB
    ⟨[certM2], []⟩ certM2 [] rfl rfl rfl rfl rfl rfl rfl

theorem scanAny_of_suffix (f : List Char → Bool) :
    ∀ (pre s : List Char), scanAny f s = true → scanAny f (pre ++ s) = true
  | [], s, h => by simpa using h
  | c :: pre, s, h => by
    show scanAny f (c :: (pre ++ s)) = true
    have := scanAny_of_suffix f pre s h
    simp only [scanAny, this, Bool.or_true]

theorem scanAny_marker_typeSig (post : List Char) :
    scanAny sigMatchAt (typeSigMarkerLit ++ post) = true := rfl

theorem scanAny_marker_ftSig (post : List Char) :
    scanAny sigMatchAt (ftSigMarkerLit ++ post) = true := rfl

theorem scanAny_marker_subFilter (post : List Char) :
    scanAny sigMatchAt (subFilterMarkerLit ++ post) = true := rfl

theorem checkPdf_hasSig_eq (inflate : List Char → Option (List Char))
    (s : List Char) : (checkPdfSignature inflate s).hasSig = hasSigScan s := by
  by_cases h : hasSigScan s <;> simp [checkPdfSignature, h]

/-- C7: the claim reads `hasSig` as equivalent to containing one of the
three literal markers (case-insensitively).  The regex allows arbitrary
— including zero — whitespace between the name tokens, so the buffer
`/Type/Sig` is reported `hasSig = true` although it contains none of the
literal markers. -/
theorem C7_counterexample :
    (checkPdfSignature inflNone s7).hasSig = true
    ∧ containsCI typeSigMarkerLit s7 = false
    ∧ containsCI ftSigMarkerLit s7 = false
    ∧ containsCI subFilterMarkerLit s7 = false := by
  refine ⟨?_, by decide, by decide, by decide⟩
  decide

/-- C7 (amended): `hasSig` is true exactly when the buffer matches one of
the three markers with any (possibly zero) run of whitespace between the
two name tokens, case-insensitively (`hasSigScan`); in particular every
buffer that contains one of the exact single-space marker strings — as a
buffer produced by the signing pipeline does, its appended signature
dictionary carrying `/Type /Sig`, `/FT /Sig` and
`/SubFilter /adbe.pkcs7.detached` — is reported `hasSig = true`,
independently of the inflater. -/
theorem C7_thm :
    (∀ (inflate : List Char → Option (List Char)) (s : List Char),
      (checkPdfSignature inflate s).hasSig = hasSigScan s)
    ∧ (∀ (inflate : List Char → Option (List Char)) (pre post : List Char),
      (checkPdfSignature inflate (pre ++ typeSigMarkerLit ++ post)).hasSig = true
      ∧ (checkPdfSignature inflate (pre ++ ftSigMarkerLit ++ post)).hasSig = true
      ∧ (checkPdfSignature inflate (pre ++ subFilterMarkerLit ++ post)).hasSig = true) := by
  refine ⟨checkPdf_hasSig_eq, ?_⟩
  intro inflate pre post
  refine ⟨?_, ?_, ?_⟩
  · rw [checkPdf_hasSig_eq]
    simpa [hasSigScan] using scanAny_of_suffix sigMatchAt pre (typeSigMarkerLit ++ post)
      (scanAny_marker_typeSig post)
  · rw [checkPdf_hasSig_eq]
    simpa [hasSigScan] using scanAny_of_suffix sigMatchAt pre (ftSigMarkerLit ++ post)
      (scanAny_marker_ftSig post)
  · rw [checkPdf_hasSig_eq]
    simpa [hasSigScan] using scanAny_of_suffix sigMatchAt pre (subFilterMarkerLit ++ post)
      (scanAny_marker_subFilter post)

/-- C8: for a buffer that carries a signature marker, `hasLTV` is exactly
the disjunction of the four checks in their priority order — root-level
`/DSS n 0 R` reference, `/Type /DSS` occurrence, the scan of at most 50
stream objects (FlateDecode bodies inflated through the zlib oracle,
other bodies scanned as-is), and `/Type /VRI` — the detector stops at the
first hit (when one of the first two checks matches, the result does not
consult the inflater at all), and a DSS marker visible only after
inflation still yields `hasLTV = true`. -/
theorem C8_thm (inflate : List Char → Option (List Char)) (s : List Char) :
    ((checkPdfSignature inflate s).hasLTV
      = (hasSigScan s &&
          (dssRefScan s || typeDssScan s || streamScan inflate s || typeVriScan s)))
    ∧ (dssRefScan s = true ∨ typeDssScan s = true →
        ∀ inflate2 : List Char → Option (List Char),
          checkPdfSignature inflate s = checkPdfSignature inflate2 s)
    ∧ (hasSigScan s = true → dssRefScan s = false → typeDssScan s = false →
        streamScan inflate s = true →
        (checkPdfSignature inflate s).hasLTV = true) := by
  have hltv : ∀ infl : List Char → Option (List Char),
      hasLTVScan infl s =
        (dssRefScan s || typeDssScan s || streamScan infl s || typeVriScan s) := by
    intro infl
    cases hd : dssRefScan s <;> cases ht : typeDssScan s <;>
      cases hst : streamScan infl s <;> cases hv : typeVriScan s <;>
      simp [hasLTVScan, hd, ht, hst, hv]
  refine ⟨?_, ?_, ?_⟩
  · by_cases h : hasSigScan s <;> simp [checkPdfSignature, h, hltv]
  · intro h inflate2
    have heq : hasLTVScan inflate s = hasLTVScan inflate2 s := by
      rcases h with h | h <;> simp [hasLTVScan, h]
    by_cases hs : hasSigScan s <;> simp [checkPdfSignature, hs, heq]
  · intro hs hd ht hst
    simp [checkPdfSignature, hs, hltv, hd, ht, hst]

/-- C8 witness: a concrete signed buffer whose only DSS marker sits behind
a FlateDecode stream (visible through the inflater) is reported
`hasLTV = true` via the stream scan. -/
theorem C8_witness : (checkPdfSignature infl8 s8).hasLTV = true :=
  (C8_thm infl8 s8).2.2 (by decide) (by decide) (by decide) (by decide)

theorem octalPass_cons_ne (c : Char) (rest : List Char) (hc : ¬ (c = '\\')) :
    octalPass (c :: rest) = c :: octalPass rest := by
  rw [octalPass.eq_def]
  split
  · rename_i d1 d2 d3 r heq
    exact absurd (List.cons.injEq .. ▸ congrArg id heq) (by simp [hc])
  · rename_i c2 r2 heq
    obtain ⟨h1, h2⟩ := List.cons.inj heq
    subst h1
    subst h2
    rfl
  · rename_i heq
    exact (List.cons_ne_nil _ _ heq).elim

theorem octalPass_nb (s : List Char) (h : '\\' ∈ s → False) : octalPass s = s := by
  induction s with
  | nil => rfl
  | cons c rest ih =>
    have hc : ¬ (c = '\\') := fun e => h (by rw [e]; exact List.mem_cons_self _ _)
    have hrest : '\\' ∈ rest → False := fun hm => h (List.mem_cons_of_mem _ hm)
    rw [octalPass_cons_ne c rest hc, ih hrest]

theorem pairPass_nb (b r : Char) (s : List Char) (h : '\\' ∈ s → False) :
    pairPass '\\' b r s = s := by
  induction s with
  | nil => rfl
  | cons x rest ih =>
    have hx : ¬ (x = '\\') := fun e => h (by rw [e]; exact List.mem_cons_self _ _)
    have hrest : '\\' ∈ rest → False := fun hm => h (List.mem_cons_of_mem _ hm)
    cases rest with
    | nil => rfl
    | cons y rest2 =>
      have hstep : pairPass '\\' b r (x :: y :: rest2) =
          x :: pairPass '\\' b r (y :: rest2) := by
        simp [pairPass, hx]
      rw [hstep, ih hrest]

/-- C9: the claim states that the two-character sequence
backslash-backslash followed by `n` decodes to a literal backslash
followed by `n`.  The passes run sequentially, so the `\\\\` pair first
collapses to one backslash and the later `\\n` pass then turns the result
into a newline. -/
theorem C9_counterexample : decodePdfString bbnLit ≠ ['\\', 'n'] := by
  decide

/-- C9 (amended): `decodePdfString` applies seven global replaces
sequentially in the order octal, `\\(`, `\\)`, `\\\\`, `\\n`, `\\r`, `\\t`;
escape-free strings pass through unchanged and each escape in isolation
decodes as listed, but because later passes re-scan earlier output, the
input backslash-backslash-`n` decodes to a newline rather than to
backslash-`n`. -/
theorem C9_thm :
    (∀ s : List Char, ('\\' ∈ s → False) → decodePdfString s = s)
    ∧ decodePdfString ['\\', '1', '0', '1'] = ['A']
    ∧ decodePdfString ['\\', '('] = ['(']
    ∧ decodePdfString ['\\', ')'] = [')']
    ∧ decodePdfString ['\\', '\\'] = ['\\']
    ∧ decodePdfString ['\\', 'n'] = ['\n']
    ∧ decodePdfString ['\\', 'r'] = ['\r']
    ∧ decodePdfString ['\\', 't'] = ['\t']
    ∧ decodePdfString bbnLit = ['\n'] := by
  refine ⟨?_, by decide, by decide, by decide, by decide, by decide, by decide,
    by decide, by decide⟩
  intro s h
  unfold decodePdfString
  rw [octalPass_nb s h, pairPass_nb '(' '(' s h, pairPass_nb ')' ')' s h,
    pairPass_nb '\\' '\\' s h, pairPass_nb 'n' '\n' s h,
    pairPass_nb 'r' '\r' s h, pairPass_nb 't' '\t' s h]

/-- C9 witness: an escape-free string passes through unchanged. -/
theorem C9_witness : decodePdfString helloLit = helloLit :=
  C9_thm.1 helloLit (by decide)

end PdfSigner
